import Mathlib

/-!
Verification of the incremental sync engine (`strava/download_activities.py`)
and the yearly aggregation engine (`plots/generate_yearly_summary.py`) of the
yearly-strava-summaries repository, via a shallow embedding in Lean.

Activity records are Python dictionaries in the source; here they are
structures whose fields are the dictionary entries the engines read, with
`Option` for entries that may be absent or null.  Python string comparison is
code-point lexicographic comparison, embedded as `strLe` below.  Python
floats are IEEE 754 binary64 values: they are embedded as exact dyadic
rationals, and every float operation is the exact rational operation followed
by `roundDouble`, round-to-nearest ties-to-even at 53 bits of mantissa.
-/

/-- Python's `<=` on strings, on the underlying character lists:
code-point lexicographic comparison. -/
def charListLe : List Char → List Char → Bool
  | [], _ => true
  | _ :: _, [] => false
  | a :: as, b :: bs =>
    if a.toNat < b.toNat then true
    else if b.toNat < a.toNat then false
    else charListLe as bs

/-- Python's `<=` on strings. -/
def strLe (a b : String) : Bool := charListLe a.data b.data

theorem charListLe_refl : ∀ a, charListLe a a = true
  | [] => rfl
  | c :: cs => by simp [charListLe, charListLe_refl cs]

theorem charListLe_total : ∀ a b, charListLe a b = true ∨ charListLe b a = true
  | [], _ => Or.inl rfl
  | _ :: _, [] => Or.inr rfl
  | a :: as, b :: bs => by
    rcases Nat.lt_trichotomy a.toNat b.toNat with h | h | h
    · left; simp [charListLe, h]
    · rcases charListLe_total as bs with ih | ih
      · left; simp [charListLe, h, ih]
      · right; simp [charListLe, h.symm, ih]
    · right; simp [charListLe, h]

theorem charListLe_trans :
    ∀ a b c, charListLe a b = true → charListLe b c = true → charListLe a c = true
  | [], _, _, _, _ => rfl
  | _ :: _, [], _, hab, _ => by simp [charListLe] at hab
  | _ :: _, _ :: _, [], _, hbc => by simp [charListLe] at hbc
  | a :: as, b :: bs, c :: cs, hab, hbc => by
    by_cases hab1 : a.toNat < b.toNat
    · by_cases hbc1 : b.toNat < c.toNat
      · simp [charListLe, Nat.lt_trans hab1 hbc1]
      · by_cases hbc2 : c.toNat < b.toNat
        · simp [charListLe, hbc1, hbc2] at hbc
        · have : c.toNat = b.toNat := Nat.le_antisymm (Nat.le_of_not_lt hbc1) (Nat.le_of_not_lt hbc2)
          simp [charListLe, this ▸ hab1]
    · by_cases hab2 : b.toNat < a.toNat
      · simp [charListLe, hab1, hab2] at hab
      · have hba : a.toNat = b.toNat := Nat.le_antisymm (Nat.le_of_not_lt hab2) (Nat.le_of_not_lt hab1)
        simp only [charListLe, hab1, hab2, if_false] at hab
        by_cases hbc1 : b.toNat < c.toNat
        · simp [charListLe, hba ▸ hbc1]
        · by_cases hbc2 : c.toNat < b.toNat
          · simp [charListLe, hbc1, hbc2] at hbc
          · simp only [charListLe, hbc1, hbc2, if_false] at hbc
            have h1 : ¬ a.toNat < c.toNat := by omega
            have h2 : ¬ c.toNat < a.toNat := by omega
            simp [charListLe, h1, h2, charListLe_trans as bs cs hab hbc]

namespace Strava

/-- One activity dictionary as handled by `download_activities.py`: the sync
engine reads only the `id`, `start_date` and `start_date_local` entries.
`id` is assumed present (the code indexes `a['id']` unconditionally); the two
timestamps may be absent (`.get`). -/
structure ActivityRecord where
  id : Nat
  start_date : Option String
  start_date_local : Option String
deriving DecidableEq

/-- Sort key used at lines 86 and 102: `x.get('start_date', '')`. -/
def startKey (r : ActivityRecord) : String := r.start_date.getD ""

/-- The comparison underlying `list.sort(key=lambda x: x.get('start_date', ''))`. -/
def keyLe (a b : ActivityRecord) : Prop := strLe (startKey a) (startKey b) = true

instance : DecidableRel keyLe := fun _ _ => inferInstanceAs (Decidable (_ = true))

instance : IsTotal ActivityRecord keyLe :=
  ⟨fun a b => charListLe_total (startKey a).data (startKey b).data⟩

instance : IsTrans ActivityRecord keyLe :=
  ⟨fun a b c => charListLe_trans (startKey a).data (startKey b).data (startKey c).data⟩

/-- Python's `list.sort` is a stable sort; on a total preorder every stable
sort yields the same list as stable insertion sort. -/
def sortByStartDate (l : List ActivityRecord) : List ActivityRecord :=
  List.insertionSort keyLe l

/-- `save_activities` (lines 84-89): sorts the list by `start_date` and writes
it out; the result is the persisted file content. -/
def save_activities (activities : List ActivityRecord) : List ActivityRecord :=
  sortByStartDate activities

/-- Lines 98-106 of `download_activities`: if the cache is non-empty, sort it
and read `start_date` of its last element; otherwise there is no cursor. -/
def determineCursor (cache : List ActivityRecord) : Option String :=
  if cache.isEmpty then none
  else ((sortByStartDate cache).getLast?).bind ActivityRecord.start_date

/-- One `activity_map[a['id']] = a` step on an insertion-ordered dictionary
represented as a list of records: replace the first record carrying the same
id in place, else append. -/
def dictInsert (x : ActivityRecord) : List ActivityRecord → List ActivityRecord
  | [] => [x]
  | y :: ys => if y.id = x.id then x :: ys else y :: dictInsert x ys

/-- `{a['id']: a for a in l}` as an insertion-ordered dictionary. -/
def toMap (l : List ActivityRecord) : List ActivityRecord :=
  l.foldl (fun m a => dictInsert a m) []

/-- Lines 133-142: build `activity_map` from the cache, overwrite with each
new record, and read the values back off in dictionary order. -/
def mergeById (cache newRecords : List ActivityRecord) : List ActivityRecord :=
  newRecords.foldl (fun m a => dictInsert a m) (toMap cache)

/-- The fetch loop (lines 111-129): the generator yields records until it is
exhausted or raises.  `collectNew` returns the records accumulated in
`new_activities` together with a flag recording whether an exception was
raised before the loop finished. -/
def collectNew : List (Except Unit ActivityRecord) → List ActivityRecord × Bool
  | [] => ([], false)
  | Except.error _ :: _ => ([], true)
  | Except.ok r :: rest =>
    let p := collectNew rest
    (r :: p.1, p.2)

/-- `download_activities` (lines 91-151) restricted to its effect on the
activities file: returns the resulting file content together with a flag
recording whether the file was rewritten.  On an exception the `except`
handler at line 148 saves nothing; on an empty fetch the `else` branch at
line 145 saves nothing. -/
def download_activities (cacheFile : List ActivityRecord)
    (fetchTrace : List (Except Unit ActivityRecord)) : List ActivityRecord × Bool :=
  let cached := if cacheFile.isEmpty then cacheFile else sortByStartDate cacheFile
  let fetched := collectNew fetchTrace
  if fetched.2 then (cacheFile, false)
  else if fetched.1.isEmpty then (cacheFile, false)
  else (save_activities (mergeById cached fetched.1), true)

/-- Linear search for the (first) record with a given id. -/
def lookupId (i : Nat) : List ActivityRecord → Option ActivityRecord
  | [] => none
  | r :: rs => if r.id = i then some r else lookupId i rs

/-- The ids carried by a list of records. -/
def ids (l : List ActivityRecord) : List Nat := l.map ActivityRecord.id

theorem ids_nil : ids [] = [] := rfl

theorem ids_cons (y : ActivityRecord) (l : List ActivityRecord) :
    ids (y :: l) = y.id :: ids l := rfl

theorem ids_append (l₁ l₂ : List ActivityRecord) : ids (l₁ ++ l₂) = ids l₁ ++ ids l₂ := by
  simp [ids]

theorem mergeById_eq_toMap (cache newRecords : List ActivityRecord) :
    mergeById cache newRecords = toMap (cache ++ newRecords) := by
  simp [mergeById, toMap, List.foldl_append]

theorem ids_dictInsert (x : ActivityRecord) (m : List ActivityRecord) :
    ids (dictInsert x m) = if x.id ∈ ids m then ids m else ids m ++ [x.id] := by
  induction m with
  | nil => simp [dictInsert, ids]
  | cons y ys ih =>
    by_cases h : y.id = x.id
    · have hmem : x.id ∈ ids (y :: ys) := by
        rw [ids_cons, h]
        exact List.mem_cons_self _ _
      have hd : dictInsert x (y :: ys) = x :: ys := by simp [dictInsert, h]
      rw [if_pos hmem, hd, ids_cons, ids_cons, h]
    · have hd : dictInsert x (y :: ys) = y :: dictInsert x ys := by simp [dictInsert, h]
      have hiff : (x.id ∈ ids (y :: ys)) ↔ (x.id ∈ ids ys) := by
        rw [ids_cons, List.mem_cons]
        constructor
        · rintro (he | hm)
          · exact absurd he.symm h
          · exact hm
        · exact Or.inr
      by_cases h2 : x.id ∈ ids ys
      · rw [if_pos (hiff.mpr h2), hd, ids_cons, ids_cons, ih, if_pos h2]
      · rw [if_neg (fun hm => h2 (hiff.mp hm)), hd, ids_cons, ids_cons, ih, if_neg h2]
        simp

theorem lookupId_dictInsert (x : ActivityRecord) (m : List ActivityRecord) (i : Nat) :
    lookupId i (dictInsert x m) = if x.id = i then some x else lookupId i m := by
  induction m with
  | nil => simp [dictInsert, lookupId]
  | cons y ys ih =>
    by_cases h : y.id = x.id
    · have hd : dictInsert x (y :: ys) = x :: ys := by simp [dictInsert, h]
      rw [hd]
      by_cases hi : x.id = i
      · simp [lookupId, hi]
      · have hyi : ¬ y.id = i := fun he => hi (h ▸ he)
        simp [lookupId, hi, hyi]
    · have hd : dictInsert x (y :: ys) = y :: dictInsert x ys := by simp [dictInsert, h]
      rw [hd]
      by_cases hi : y.id = i
      · have hxi : ¬ x.id = i := fun he => h (hi.trans he.symm)
        simp [lookupId, hi, hxi]
      · simp [lookupId, hi, ih]

theorem lookupId_append (i : Nat) (l₁ l₂ : List ActivityRecord) :
    lookupId i (l₁ ++ l₂) =
      match lookupId i l₁ with
      | some r => some r
      | none => lookupId i l₂ := by
  induction l₁ with
  | nil => simp [lookupId]
  | cons x xs ih =>
    by_cases h : x.id = i
    · simp [lookupId, h]
    · simp [lookupId, h, ih]

theorem lookupId_foldl (m l : List ActivityRecord) (i : Nat) :
    lookupId i (l.foldl (fun m a => dictInsert a m) m) =
      match lookupId i l.reverse with
      | some r => some r
      | none => lookupId i m := by
  induction l using List.reverseRecOn generalizing m with
  | nil => simp [lookupId]
  | append_singleton l a ih =>
    rw [List.foldl_append]
    simp only [List.foldl_cons, List.foldl_nil, List.reverse_append, List.reverse_singleton,
      List.singleton_append]
    rw [lookupId_dictInsert]
    by_cases h : a.id = i
    · simp [lookupId, h]
    · simp only [lookupId, if_neg h, ih]

theorem lookupId_toMap (l : List ActivityRecord) (i : Nat) :
    lookupId i (toMap l) = lookupId i l.reverse := by
  rw [toMap, lookupId_foldl]
  cases h : lookupId i l.reverse <;> simp [lookupId]

theorem mem_ids_iff_lookup (i : Nat) (m : List ActivityRecord) :
    i ∈ ids m ↔ (lookupId i m).isSome := by
  induction m with
  | nil => simp [ids, lookupId]
  | cons x xs ih =>
    rw [ids_cons, List.mem_cons]
    by_cases h : x.id = i
    · simp [lookupId, h]
    · simp only [lookupId, if_neg h]
      constructor
      · rintro (he | hm)
        · exact absurd he.symm h
        · exact ih.mp hm
      · intro hs
        exact Or.inr (ih.mpr hs)

theorem lookupId_eq_some (i : Nat) (m : List ActivityRecord) (r : ActivityRecord)
    (h : lookupId i m = some r) : r ∈ m ∧ r.id = i := by
  induction m with
  | nil => simp [lookupId] at h
  | cons x xs ih =>
    by_cases hx : x.id = i
    · simp only [lookupId, if_pos hx] at h
      cases h
      exact ⟨List.mem_cons_self _ _, hx⟩
    · simp only [lookupId, if_neg hx] at h
      rcases ih h with ⟨h1, h2⟩
      exact ⟨List.mem_cons_of_mem _ h1, h2⟩

theorem toMap_append_singleton (l : List ActivityRecord) (a : ActivityRecord) :
    toMap (l ++ [a]) = dictInsert a (toMap l) := by
  simp [toMap, List.foldl_append]

theorem nodup_ids_toMap (l : List ActivityRecord) : (ids (toMap l)).Nodup := by
  induction l using List.reverseRecOn with
  | nil => simp [toMap, ids]
  | append_singleton l a ih =>
    rw [toMap_append_singleton, ids_dictInsert]
    by_cases h : a.id ∈ ids (toMap l)
    · simpa [h] using ih
    · rw [if_neg h, List.nodup_append]
      refine ⟨ih, List.nodup_singleton _, ?_⟩
      intro b hb hbs
      have : b = a.id := by simpa using hbs
      exact h (this ▸ hb)

theorem lookup_of_mem_nodup {m : List ActivityRecord} (hm : (ids m).Nodup)
    {r : ActivityRecord} (hr : r ∈ m) : lookupId r.id m = some r := by
  induction m with
  | nil => simp at hr
  | cons x xs ih =>
    rw [ids_cons] at hm
    have hm' := List.nodup_cons.mp hm
    rcases List.mem_cons.mp hr with h | h
    · subst h
      simp [lookupId]
    · have hx : ¬ x.id = r.id := by
        intro he
        apply hm'.1
        rw [he]
        exact List.mem_map_of_mem ActivityRecord.id h
      simp [lookupId, hx, ih hm'.2 h]

theorem dictInsert_of_not_mem {x : ActivityRecord} {m : List ActivityRecord}
    (h : x.id ∉ ids m) : dictInsert x m = m ++ [x] := by
  induction m with
  | nil => simp [dictInsert]
  | cons y ys ih =>
    have h1 : ¬ y.id = x.id := by
      intro he
      exact h (by rw [ids_cons, ← he]; exact List.mem_cons_self _ _)
    have h2 : x.id ∉ ids ys := by
      intro hmem
      exact h (by rw [ids_cons]; exact List.mem_cons_of_mem _ hmem)
    simp [dictInsert, h1, ih h2]

theorem foldl_dictInsert_of_nodup :
    ∀ (l acc : List ActivityRecord), (ids (acc ++ l)).Nodup →
      l.foldl (fun m a => dictInsert a m) acc = acc ++ l
  | [], acc, _ => by simp
  | x :: xs, acc, h => by
    have hsplit : ids (acc ++ x :: xs) = ids acc ++ x.id :: ids xs := by
      rw [ids_append, ids_cons]
    rw [hsplit] at h
    have hx : x.id ∉ ids acc := by
      rcases List.nodup_append.mp h with ⟨_, _, hdisj⟩
      intro hmem
      exact hdisj hmem (List.mem_cons_self _ _)
    have hrest : (ids ((acc ++ [x]) ++ xs)).Nodup := by
      have heq : (acc ++ [x]) ++ xs = acc ++ x :: xs := by simp
      rw [heq, hsplit]
      exact h
    simp only [List.foldl_cons, dictInsert_of_not_mem hx]
    rw [foldl_dictInsert_of_nodup xs (acc ++ [x]) hrest]
    simp

theorem toMap_of_nodup {l : List ActivityRecord} (h : (ids l).Nodup) : toMap l = l := by
  have := foldl_dictInsert_of_nodup l [] (by simpa using h)
  simpa [toMap] using this

theorem ids_foldl_of_mem :
    ∀ (l m : List ActivityRecord), (∀ a ∈ l, a.id ∈ ids m) →
      ids (l.foldl (fun m a => dictInsert a m) m) = ids m
  | [], _, _ => rfl
  | x :: xs, m, h => by
    have hx : x.id ∈ ids m := h x (List.mem_cons_self _ _)
    have hins : ids (dictInsert x m) = ids m := by
      rw [ids_dictInsert, if_pos hx]
    simp only [List.foldl_cons]
    rw [ids_foldl_of_mem xs (dictInsert x m)
      (fun a ha => hins ▸ h a (List.mem_cons_of_mem _ ha))]
    exact hins

theorem eq_of_ids_of_lookup :
    ∀ (m₁ m₂ : List ActivityRecord), ids m₁ = ids m₂ → (ids m₁).Nodup →
      (∀ i, lookupId i m₁ = lookupId i m₂) → m₁ = m₂
  | [], m₂, hids, _, _ => by
    have : m₂.map ActivityRecord.id = [] := by simpa [ids] using hids.symm
    simpa using (List.map_eq_nil_iff.mp this).symm
  | x :: xs, [], hids, _, _ => by simp [ids] at hids
  | x :: xs, y :: ys, hids, hnd, hl => by
    have hid : x.id = y.id ∧ ids xs = ids ys := by
      rw [ids_cons, ids_cons] at hids
      exact ⟨List.head_eq_of_cons_eq hids, List.tail_eq_of_cons_eq hids⟩
    have hxy : x = y := by
      have h1 : lookupId x.id (x :: xs) = some x := by simp [lookupId]
      have h2 : lookupId x.id (y :: ys) = some y := by simp [lookupId, hid.1.symm]
      have h3 := (hl x.id).symm.trans h1
      rw [h2] at h3
      exact (Option.some.inj h3).symm
    rw [ids_cons] at hnd
    have hnd' := List.nodup_cons.mp hnd
    have hnotmem : x.id ∉ ids xs := hnd'.1
    have htails : ∀ j, lookupId j xs = lookupId j ys := by
      intro j
      by_cases hj : j = x.id
      · have h1 : lookupId j xs = none := by
          cases hcase : lookupId j xs with
          | none => rfl
          | some r =>
            have : j ∈ ids xs := (mem_ids_iff_lookup j xs).mpr (by simp [hcase])
            exact absurd (hj ▸ this) hnotmem
        have h2 : lookupId j ys = none := by
          cases hcase : lookupId j ys with
          | none => rfl
          | some r =>
            have hmem : j ∈ ids ys := (mem_ids_iff_lookup j ys).mpr (by simp [hcase])
            rw [← hid.2] at hmem
            exact absurd (hj ▸ hmem) hnotmem
        rw [h1, h2]
      · have hlj := hl j
        have hyne : ¬ y.id = j := fun he => hj (by rw [← he, ← hid.1])
        have hxne : ¬ x.id = j := fun he => hj he.symm
        simpa [lookupId, hxne, hyne] using hlj
    rw [hxy, eq_of_ids_of_lookup xs ys hid.2 hnd'.2 htails]

theorem keyLe_refl (x : ActivityRecord) : keyLe x x :=
  charListLe_refl (startKey x).data

theorem keyLe_getLast_of_sorted :
    ∀ (l : List ActivityRecord), List.Sorted keyLe l →
      ∀ x ∈ l, ∀ (h : l ≠ []), keyLe x (l.getLast h)
  | [], _, x, hx, _ => absurd hx (List.not_mem_nil x)
  | [a], _, x, hx, _ => by
    have : x = a := by simpa using hx
    subst this
    exact keyLe_refl x
  | a :: b :: ts, hs, x, hx, h => by
    have hne : b :: ts ≠ [] := List.cons_ne_nil _ _
    rw [List.getLast_cons hne]
    rcases List.mem_cons.mp hx with hxa | hxt
    · subst hxa
      exact List.rel_of_sorted_cons hs _ (List.getLast_mem hne)
    · exact keyLe_getLast_of_sorted (b :: ts) hs.of_cons x hxt hne

end Strava

namespace Plots

/-- One activity dictionary as read by `generate_yearly_summary.py`.  The
engine reads the entries `type`, `start_date_local`, `distance`,
`moving_time`, `start_latlng` and `map.summary_polyline`; each may be absent
or null.  Numbers are embedded as rationals. -/
structure Activity where
  type : Option String
  start_date_local : Option String
  distance : Option ℚ
  moving_time : Option ℚ
  start_latlng : Option (List ℚ)
  summary_polyline : Option String
deriving DecidableEq

/-- The value of a digit run, most significant first. -/
def natOfDigits (l : List Char) : Nat :=
  l.foldl (fun n c => 10 * n + (c.toNat - 48)) 0

def isLeap (y : Nat) : Bool :=
  (y % 4 == 0 && y % 100 != 0) || y % 400 == 0

def daysInMonth (y m : Nat) : Nat :=
  if m = 2 then (if isLeap y then 29 else 28)
  else if m = 4 ∨ m = 6 ∨ m = 9 ∨ m = 11 then 30
  else 31

/-- The value `datetime.strptime` produces for the format used here. -/
structure PyDateTime where
  year : Nat
  month : Nat
  day : Nat
  hour : Nat
  minute : Nat
  second : Nat
deriving DecidableEq

/-- Read a numeric field of `lo`..`hi` digits followed by the literal `sep`,
as the corresponding fragment of CPython's `_strptime` regular expression
does (a maximal digit run is taken; the next character must be the
separator). -/
def readField (cs : List Char) (sep : Char) (lo hi : Nat) : Option (Nat × List Char) :=
  let p := cs.span Char.isDigit
  match p.2 with
  | c :: rest =>
    if c = sep ∧ lo ≤ p.1.length ∧ p.1.length ≤ hi then some (natOfDigits p.1, rest)
    else none
  | [] => none

/-- `datetime.strptime(s, '%Y-%m-%dT%H:%M:%SZ')` (lines 38 and 78): `none`
when the call raises `ValueError` (either the pattern does not match or the
`datetime` constructor rejects the field values). -/
def parseTs (s : String) : Option PyDateTime :=
  match readField s.data '-' 4 4 with
  | none => none
  | some (y, r1) =>
    match readField r1 '-' 1 2 with
    | none => none
    | some (mo, r2) =>
      match readField r2 'T' 1 2 with
      | none => none
      | some (d, r3) =>
        match readField r3 ':' 1 2 with
        | none => none
        | some (h, r4) =>
          match readField r4 ':' 1 2 with
          | none => none
          | some (mi, r5) =>
            match readField r5 'Z' 1 2 with
            | none => none
            | some (sec, r6) =>
              if r6 = [] ∧ 1 ≤ y ∧ 1 ≤ mo ∧ mo ≤ 12 ∧ 1 ≤ d ∧ d ≤ daysInMonth y mo ∧
                  h ≤ 23 ∧ mi ≤ 59 ∧ sec ≤ 59
              then some ⟨y, mo, d, h, mi, sec⟩ else none

/-- The filter at lines 31-43: a record enters `year_activities` iff its
`type` is `'Run'`, its `start_date_local` is present and truthy (non-empty),
and it parses in the fixed format to a datetime of the requested year. -/
def selectedPred (year : Int) (a : Activity) : Bool :=
  a.type == some "Run" &&
    (match a.start_date_local with
     | none => false
     | some s =>
       if s = "" then false
       else
         match parseTs s with
         | some dt => (dt.year : Int) == year
         | none => false)

def selectYear (activities : List Activity) (year : Int) : List Activity :=
  activities.filter (selectedPred year)

/-- The `print` at line 42: the warning a record contributes while being
filtered, if any.  It fires exactly when the record has kind `'Run'` and a
truthy `start_date_local` whose parse raises `ValueError`. -/
def recordWarning (a : Activity) : Option String :=
  if a.type == some "Run" then
    match a.start_date_local with
    | some s =>
      if s ≠ "" ∧ parseTs s = none then some ("Warning: Could not parse date " ++ s)
      else none
    | none => none
  else none

/-- `act.get('distance', 0)`. -/
def distanceOf (a : Activity) : ℚ := a.distance.getD 0

/-- `act.get('moving_time', 0)`. -/
def movingOf (a : Activity) : ℚ := a.moving_time.getD 0

def min_lon : ℚ := -332322 / 100000
def min_lat : ℚ := 5138586 / 100000
def max_lon : ℚ := -314065 / 100000
def max_lat : ℚ := 5151634 / 100000

def bbox : List (List ℚ) := [[min_lon, min_lat], [max_lon, max_lat]]

/-- Lines 84-88: membership test for the bounding-box subset. -/
def inMainMap (a : Activity) : Bool :=
  match a.start_latlng with
  | some (lat :: lon :: []) =>
    decide (min_lat ≤ lat ∧ lat ≤ max_lat ∧ min_lon ≤ lon ∧ lon ≤ max_lon)
  | _ => false

/-- Python's `int()` on a rational value: truncation toward zero. -/
def pyInt (q : ℚ) : Int := if 0 ≤ q then ⌊q⌋ else -⌊-q⌋

/-- Python's `f"{n:02d}"` for the second count. -/
def pad2 (n : Int) : String := if 0 ≤ n ∧ n < 10 then "0" ++ toString n else toString n

/-- Round a rational to the nearest integer, ties to even — the rounding used
by IEEE 754 round-to-nearest. -/
def rne (x : ℚ) : Int :=
  let f := ⌊x⌋
  let r := x - f
  if r < 1 / 2 then f
  else if 1 / 2 < r then f + 1
  else if f % 2 = 0 then f else f + 1

/-- Round a rational to the nearest IEEE 754 binary64 value (53-bit mantissa,
round-to-nearest ties-to-even, exponent clamped below at the subnormal scale
`2 ^ (-1022)`), as a rational.  Python floats are binary64, so every float
the program produces is `roundDouble` of the exact result of the operation.
Values beyond the binary64 overflow threshold `2 ^ 1024` do not occur in the
computations modelled here and are left unclamped. -/
def roundDouble (q : ℚ) : ℚ :=
  if q = 0 then 0
  else
    let a := |q|
    let e : Int := max (Int.log 2 a) (-1022)
    let m := rne (a * (2 : ℚ) ^ ((52 : Int) - e))
    (if q < 0 then -1 else 1) * (m : ℚ) * (2 : ℚ) ^ (e - 52)

/-- CPython float addition: exact sum, rounded to binary64. -/
def floatAdd (x y : ℚ) : ℚ := roundDouble (x + y)

/-- CPython float subtraction: exact difference, rounded to binary64. -/
def floatSub (x y : ℚ) : ℚ := roundDouble (x - y)

/-- CPython float multiplication: exact product, rounded to binary64. -/
def floatMul (x y : ℚ) : ℚ := roundDouble (x * y)

/-- CPython float (true) division: exact quotient, rounded to binary64. -/
def floatDiv (x y : ℚ) : ℚ := roundDouble (x / y)

/-- Lines 100-111: the average-pace string.  Every arithmetic operation the
program performs here is a CPython float operation on binary64 doubles, so
each is an exact rational operation followed by `roundDouble`; the totals
passed in are the (binary64-representable) values the program holds. -/
def avg_pace_str (total_dist_meters total_seconds : ℚ) : String :=
  if 0 < total_dist_meters then
    let avg_pace_decimal := floatMul (floatDiv total_seconds total_dist_meters) (floatDiv 1000 60)
    let pace_min := pyInt avg_pace_decimal
    let pace_sec := pyInt (floatMul (floatSub avg_pace_decimal (pace_min : ℚ)) 60)
    toString pace_min ++ ":" ++ pad2 pace_sec ++ " /km"
  else "0:00 /km"

/-- The cleaned projection of a record (lines 127-131). -/
structure CleanActivity where
  summary_polyline : Option String
  date : Option String
deriving DecidableEq

def clean_activity (a : Activity) : CleanActivity :=
  ⟨a.summary_polyline, a.start_date_local⟩

/-- The statistics computed at lines 59-120: the numeric entries are the
binary64 values the program holds, represented as exact dyadic rationals. -/
structure Stats where
  total_runs : Nat
  total_dist_km : ℚ
  max_dist_km : ℚ
  avg_dist_km : ℚ
  runs_per_week : ℚ
  avg_pace : String
deriving DecidableEq

/-- Distances are floats, so `total_dist_meters += dist` accumulates with a
binary64 rounding per step; `moving_time` values are Python integers, so
`total_seconds` is an exact integer sum; the divisions are float divisions. -/
def buildStats (sel : List Activity) : Stats :=
  let total_dist_meters := sel.foldl (fun acc a => floatAdd acc (distanceOf a)) 0
  let total_seconds := (sel.map movingOf).sum
  let total_runs := sel.length
  let total_dist_km := floatDiv total_dist_meters 1000
  let max_dist_km :=
    floatDiv (sel.foldl (fun m a => if m < distanceOf a then distanceOf a else m) 0) 1000
  let avg_dist_km := if 0 < total_runs then floatDiv total_dist_km (total_runs : ℚ) else 0
  let runs_per_week := floatDiv (total_runs : ℚ) 52
  ⟨total_runs, total_dist_km, max_dist_km, avg_dist_km, runs_per_week,
    avg_pace_str total_dist_meters total_seconds⟩

/-- `data_for_js` (lines 133-139). -/
structure Payload where
  year : Int
  runs : List CleanActivity
  mainMapRuns : List CleanActivity
  stats : Stats
  boundingBox : List (List ℚ)
deriving DecidableEq

def buildPayload (year : Int) (sel : List Activity) : Payload :=
  ⟨year, sel.map clean_activity, (sel.filter inMainMap).map clean_activity,
    buildStats sel, bbox⟩

/-- `main` (lines 30-151) up to the hand-off to the renderer: `ok none` when
the year selection is empty (early return at lines 47-49), `ok (some payload)`
otherwise — unless the unguarded `strptime` at line 78 were to raise on a
selected record, which the model records as `error ()`. -/
def mainResult (activities : List Activity) (year : Int) : Except Unit (Option Payload) :=
  let sel := selectYear activities year
  if sel.isEmpty then Except.ok none
  else if sel.all (fun a => (a.start_date_local.bind parseTs).isSome) then
    Except.ok (some (buildPayload year sel))
  else Except.error ()

end Plots

open Strava Plots

/-- A cache record whose remote-clock `start_date` differs from its
local-clock `start_date_local`. -/
def skewedRec : Strava.ActivityRecord :=
  ⟨1, some "2025-01-01T00:00:00Z", some "2025-01-01T08:00:00Z"⟩

/-- C1 (counterexample): on the one-record cache `[skewedRec]` the cursor is
the record's `start_date`, not its `start_date_local` as the claim states:
`determineCursor` reads `latest_activity.get('start_date')`. -/
theorem claim_C1_counterexample :
    Strava.determineCursor [skewedRec] ≠ skewedRec.start_date_local := by decide

/-- C1 (amended): for every non-empty cache, `determineCursor` returns the
`start_date` (not `start_date_local`) of a record whose `start_date` key
(missing treated as the empty string) is maximal — the last record after the
defensive sort — and returns `none` on the empty cache. -/
theorem claim_C1_cursor_amended (cache : List Strava.ActivityRecord) (h : cache ≠ []) :
    (∃ r ∈ cache, Strava.determineCursor cache = r.start_date ∧
        ∀ r' ∈ cache, strLe (Strava.startKey r') (Strava.startKey r) = true) ∧
      Strava.determineCursor [] = none := by
  have hlen : Strava.sortByStartDate cache ≠ [] := by
    intro he
    apply h
    have hl := List.length_insertionSort Strava.keyLe cache
    rw [Strava.sortByStartDate] at he
    rw [he] at hl
    exact List.length_eq_zero.mp hl.symm
  constructor
  · refine ⟨(Strava.sortByStartDate cache).getLast hlen, ?_, ?_, ?_⟩
    · exact (List.mem_insertionSort Strava.keyLe).mp (List.getLast_mem hlen)
    · have hie : cache.isEmpty = false := by
        cases cache with
        | nil => exact absurd rfl h
        | cons a t => rfl
      rw [Strava.determineCursor, hie]
      rw [List.getLast?_eq_getLast _ hlen]
      simp
    · intro r' hr'
      exact Strava.keyLe_getLast_of_sorted _ (List.sorted_insertionSort Strava.keyLe cache)
        r' ((List.mem_insertionSort Strava.keyLe).mpr hr') hlen
  · rfl

/-- Witness for C1 (amended) on the concrete cache `[skewedRec]`. -/
theorem claim_C1_witness :
    (∃ r ∈ [skewedRec], Strava.determineCursor [skewedRec] = r.start_date ∧
        ∀ r' ∈ [skewedRec], strLe (Strava.startKey r') (Strava.startKey r) = true) ∧
      Strava.determineCursor [] = none :=
  claim_C1_cursor_amended [skewedRec] (List.cons_ne_nil _ _)

/-- C2 (counterexample): a cache written by `save_activities` that is not
sorted by `start_date_local`: the code sorts by `start_date` only. -/
theorem claim_C2_counterexample :
    ¬ List.Sorted (fun a b : Strava.ActivityRecord =>
        strLe (a.start_date_local.getD "") (b.start_date_local.getD "") = true)
      (Strava.save_activities
        [⟨1, some "2025-01-01T00:00:00Z", some "2025-12-31T00:00:00Z"⟩,
         ⟨2, some "2025-06-01T00:00:00Z", some "2025-06-01T00:00:00Z"⟩]) := by decide

/-- C2 (amended): every cache produced by `save_activities` is sorted
non-decreasing by `start_date` (missing treated as the empty string),
lexicographically on the fixed-format timestamp string. -/
theorem claim_C2_sorted_amended (l : List Strava.ActivityRecord) :
    List.Sorted Strava.keyLe (Strava.save_activities l) :=
  List.sorted_insertionSort Strava.keyLe l

/-- C3: `merge` produces exactly the union of cache and fetched records keyed
by `id`: the result's ids are duplicate-free, an id appears in the result iff
it appears in one of the two inputs (and then exactly once), and every result
record whose id was fetched comes from the fetched list, not the cache. -/
theorem claim_C3_merge_union (cache newRecords : List Strava.ActivityRecord) :
    (Strava.ids (Strava.mergeById cache newRecords)).Nodup ∧
      (∀ i : Nat, i ∈ Strava.ids (Strava.mergeById cache newRecords) ↔
        i ∈ Strava.ids cache ∨ i ∈ Strava.ids newRecords) ∧
      (∀ i : Nat, i ∈ Strava.ids cache ∨ i ∈ Strava.ids newRecords →
        (Strava.ids (Strava.mergeById cache newRecords)).count i = 1) ∧
      (∀ r ∈ Strava.mergeById cache newRecords,
        r.id ∈ Strava.ids newRecords → r ∈ newRecords) := by
  rw [Strava.mergeById_eq_toMap]
  have hnd := Strava.nodup_ids_toMap (cache ++ newRecords)
  have hmem : ∀ i : Nat, i ∈ Strava.ids (Strava.toMap (cache ++ newRecords)) ↔
      i ∈ Strava.ids cache ∨ i ∈ Strava.ids newRecords := by
    intro i
    rw [Strava.mem_ids_iff_lookup, Strava.lookupId_toMap, ← Strava.mem_ids_iff_lookup]
    have : Strava.ids (cache ++ newRecords).reverse = (Strava.ids (cache ++ newRecords)).reverse := by
      simp [Strava.ids]
    rw [this, List.mem_reverse, Strava.ids_append, List.mem_append]
  refine ⟨hnd, hmem, ?_, ?_⟩
  · intro i hi
    exact List.count_eq_one_of_mem hnd ((hmem i).mpr hi)
  · intro r hr hid
    have hlook := Strava.lookup_of_mem_nodup hnd hr
    rw [Strava.lookupId_toMap, List.reverse_append, Strava.lookupId_append] at hlook
    have hsome : (Strava.lookupId r.id newRecords.reverse).isSome := by
      rw [← Strava.mem_ids_iff_lookup]
      have : Strava.ids newRecords.reverse = (Strava.ids newRecords).reverse := by
        simp [Strava.ids]
      rw [this, List.mem_reverse]
      exact hid
    cases hcase : Strava.lookupId r.id newRecords.reverse with
    | none => rw [hcase] at hsome; simp at hsome
    | some r' =>
      rw [hcase] at hlook
      simp only at hlook
      cases hlook
      have := (Strava.lookupId_eq_some _ _ _ hcase).1
      exact List.mem_reverse.mp this

/-- Witness for C3 on a concrete cache and fetch where the same id occurs in
both: the merged record with that id is the fetched one. -/
theorem claim_C3_witness :
    (⟨1, some "B", some "B"⟩ : Strava.ActivityRecord) ∈
      [(⟨1, some "B", some "B"⟩ : Strava.ActivityRecord)] :=
  (claim_C3_merge_union [⟨1, some "A", some "A"⟩] [⟨1, some "B", some "B"⟩]).2.2.2
    ⟨1, some "B", some "B"⟩ (by decide) (by decide)

/-- C4: merging the same fetched list into a cache twice gives the same list
as merging it once. -/
theorem claim_C4_merge_idempotent (cache newRecords : List Strava.ActivityRecord) :
    Strava.mergeById (Strava.mergeById cache newRecords) newRecords =
      Strava.mergeById cache newRecords := by
  rw [Strava.mergeById_eq_toMap cache newRecords]
  have hnd := Strava.nodup_ids_toMap (cache ++ newRecords)
  have hmemnew : ∀ a ∈ newRecords, a.id ∈ Strava.ids (Strava.toMap (cache ++ newRecords)) := by
    intro a ha
    rw [Strava.mem_ids_iff_lookup, Strava.lookupId_toMap, ← Strava.mem_ids_iff_lookup]
    have : Strava.ids (cache ++ newRecords).reverse =
        (Strava.ids (cache ++ newRecords)).reverse := by
      simp [Strava.ids]
    rw [this, List.mem_reverse, Strava.ids_append, List.mem_append]
    exact Or.inr (List.mem_map_of_mem Strava.ActivityRecord.id ha)
  rw [Strava.mergeById, Strava.toMap_of_nodup hnd]
  apply Strava.eq_of_ids_of_lookup
  · exact Strava.ids_foldl_of_mem newRecords _ hmemnew
  · rw [Strava.ids_foldl_of_mem newRecords _ hmemnew]
    exact hnd
  · intro i
    rw [Strava.lookupId_foldl]
    cases hcase : Strava.lookupId i newRecords.reverse with
    | none => rfl
    | some a =>
      rw [Strava.lookupId_toMap, List.reverse_append, Strava.lookupId_append, hcase]

/-- C5: if the fetch raises after yielding any number of records, the records
fetched so far are discarded and the activities file is neither modified nor
rewritten, whatever the cache held. -/
theorem claim_C5_fetch_failure_discards (cacheFile : List Strava.ActivityRecord)
    (fetchedSoFar : List Strava.ActivityRecord)
    (rest : List (Except Unit Strava.ActivityRecord)) :
    Strava.download_activities cacheFile
        (fetchedSoFar.map Except.ok ++ Except.error () :: rest) =
      (cacheFile, false) := by
  have hcollect : Strava.collectNew (fetchedSoFar.map Except.ok ++ Except.error () :: rest) =
      (fetchedSoFar, true) := by
    induction fetchedSoFar with
    | nil => simp [Strava.collectNew]
    | cons r rs ih => simp [Strava.collectNew, ih]
  simp [Strava.download_activities, hcollect]

/-- C6: if the fetch yields no records at all, the save step is skipped: the
activities file keeps its exact previous content (no rewrite, no reorder). -/
theorem claim_C6_empty_fetch_noop (cacheFile : List Strava.ActivityRecord) :
    Strava.download_activities cacheFile [] = (cacheFile, false) := by
  simp [Strava.download_activities, Strava.collectNew]

theorem pyInt_eq_of (q : ℚ) (z : Int) (h0 : 0 ≤ q) (h1 : (z : ℚ) ≤ q)
    (h2 : q < (z : ℚ) + 1) : Plots.pyInt q = z := by
  rw [Plots.pyInt, if_pos h0]
  exact Int.floor_eq_iff.mpr ⟨h1, h2⟩

theorem int_log_eq (q : ℚ) (e : Int) (h0 : 0 < q)
    (hlo : (2 : ℚ) ^ e ≤ q) (hhi : q < (2 : ℚ) ^ (e + 1)) : Int.log 2 q = e := by
  have hb : 1 < (2 : ℕ) := one_lt_two
  have hc : ((2 : ℕ) : ℚ) = (2 : ℚ) := by norm_num
  have h1 : e ≤ Int.log 2 q := (Int.zpow_le_iff_le_log hb h0).mp (by rw [hc]; exact hlo)
  have h2 : Int.log 2 q < e + 1 := (Int.lt_zpow_iff_log_lt hb h0).mp (by rw [hc]; exact hhi)
  omega

theorem rne_of_lt_half (x : ℚ) (f : Int) (h1 : (f : ℚ) ≤ x) (h2 : x < (f : ℚ) + 1 / 2) :
    Plots.rne x = f := by
  have hf : ⌊x⌋ = f := Int.floor_eq_iff.mpr ⟨h1, by linarith⟩
  simp only [Plots.rne, hf]
  rw [if_pos (by linarith)]

theorem rne_of_gt_half (x : ℚ) (f : Int) (h1 : (f : ℚ) + 1 / 2 < x) (h2 : x < (f : ℚ) + 1) :
    Plots.rne x = f + 1 := by
  have hf : ⌊x⌋ = f := Int.floor_eq_iff.mpr ⟨by linarith, h2⟩
  simp only [Plots.rne, hf]
  rw [if_neg (by linarith), if_pos (by linarith)]

theorem roundDouble_zero : Plots.roundDouble 0 = 0 := by
  simp [Plots.roundDouble]

theorem roundDouble_pos_eval (q : ℚ) (e m : Int) (k : Nat) (h0 : 0 < q)
    (hlo : (2 : ℚ) ^ e ≤ q) (hhi : q < (2 : ℚ) ^ (e + 1)) (hemin : (-1022 : Int) ≤ e)
    (hm : Plots.rne (q * (2 : ℚ) ^ ((52 : Int) - e)) = m)
    (hk : e - 52 = -(k : Int)) :
    Plots.roundDouble q = (m : ℚ) / 2 ^ k := by
  have hq0 : q ≠ 0 := ne_of_gt h0
  have habs : |q| = q := abs_of_pos h0
  have hmax : max (Int.log 2 q) (-1022 : Int) = e := by
    rw [int_log_eq q e h0 hlo hhi]
    exact max_eq_left hemin
  simp only [Plots.roundDouble]
  rw [if_neg hq0, habs, hmax, hm, if_neg (not_lt.mpr h0.le), hk, zpow_neg, zpow_natCast]
  ring

theorem avg_pace_eval (d s : ℚ) (hd : 0 < d) (m sec : Int)
    (hm : Plots.pyInt (Plots.floatMul (Plots.floatDiv s d) (Plots.floatDiv 1000 60)) = m)
    (hs : Plots.pyInt (Plots.floatMul
        (Plots.floatSub (Plots.floatMul (Plots.floatDiv s d) (Plots.floatDiv 1000 60)) (m : ℚ))
        60) = sec) :
    Plots.avg_pace_str d s = toString m ++ ":" ++ Plots.pad2 sec ++ " /km" := by
  simp only [Plots.avg_pace_str, if_pos hd]
  rw [hm, hs]

theorem floatDiv_1000_60 : Plots.floatDiv 1000 60 = (4691249611844267 : ℚ) / 2 ^ 48 := by
  rw [Plots.floatDiv]
  have hq : (1000 : ℚ) / 60 = 50 / 3 := by norm_num
  rw [hq]
  refine roundDouble_pos_eval _ 4 _ 48 (by norm_num) (by norm_num) (by norm_num)
    (by norm_num) ?_ (by norm_num)
  have h := rne_of_gt_half ((50 / 3 : ℚ) * (2 : ℚ) ^ ((52 : Int) - 4)) 4691249611844266
    (by norm_num) (by norm_num)
  exact h.trans (by norm_num)

theorem pace_eval_3030 : Plots.avg_pace_str 10000 3030 = "5:02 /km" := by
  have hA : Plots.floatDiv 3030 10000 = (5458362748373041 : ℚ) / 2 ^ 54 := by
    rw [Plots.floatDiv]
    refine roundDouble_pos_eval _ (-2) _ 54 (by norm_num) (by norm_num) (by norm_num)
      (by norm_num) ?_ (by norm_num)
    exact rne_of_lt_half _ 5458362748373041 (by norm_num) (by norm_num)
  have hC : Plots.floatMul ((5458362748373041 : ℚ) / 2 ^ 54) ((4691249611844267 : ℚ) / 2 ^ 48) =
      (5685794529555251 : ℚ) / 2 ^ 50 := by
    rw [Plots.floatMul]
    refine roundDouble_pos_eval _ 2 _ 50 (by norm_num) (by norm_num) (by norm_num)
      (by norm_num) ?_ (by norm_num)
    exact rne_of_lt_half _ 5685794529555251 (by norm_num) (by norm_num)
  have hmin : Plots.pyInt ((5685794529555251 : ℚ) / 2 ^ 50) = 5 :=
    pyInt_eq_of _ _ (by norm_num) (by norm_num) (by norm_num)
  have hsub : Plots.floatSub ((5685794529555251 : ℚ) / 2 ^ 50) ((5 : Int) : ℚ) =
      (7205759403792768 : ℚ) / 2 ^ 57 := by
    rw [Plots.floatSub]
    have harg : (5685794529555251 : ℚ) / 2 ^ 50 - ((5 : Int) : ℚ) =
        56294995342131 / 2 ^ 50 := by
      norm_num
    rw [harg]
    refine roundDouble_pos_eval _ (-5) _ 57 (by norm_num) (by norm_num) (by norm_num)
      (by norm_num) ?_ (by norm_num)
    exact rne_of_lt_half _ 7205759403792768 (by norm_num) (by norm_num)
  have hmul60 : Plots.floatMul ((7205759403792768 : ℚ) / 2 ^ 57) 60 =
      (6755399441055720 : ℚ) / 2 ^ 51 := by
    rw [Plots.floatMul]
    refine roundDouble_pos_eval _ 1 _ 51 (by norm_num) (by norm_num) (by norm_num)
      (by norm_num) ?_ (by norm_num)
    exact rne_of_lt_half _ 6755399441055720 (by norm_num) (by norm_num)
  have hsec : Plots.pyInt ((6755399441055720 : ℚ) / 2 ^ 51) = 2 :=
    pyInt_eq_of _ _ (by norm_num) (by norm_num) (by norm_num)
  have hm1 : Plots.pyInt (Plots.floatMul (Plots.floatDiv 3030 10000)
      (Plots.floatDiv 1000 60)) = 5 := by
    rw [hA, floatDiv_1000_60, hC]
    exact hmin
  have hs1 : Plots.pyInt (Plots.floatMul (Plots.floatSub
      (Plots.floatMul (Plots.floatDiv 3030 10000) (Plots.floatDiv 1000 60))
      ((5 : Int) : ℚ)) 60) = 2 := by
    rw [hA, floatDiv_1000_60, hC, hsub, hmul60]
    exact hsec
  rw [avg_pace_eval 10000 3030 (by norm_num) 5 2 hm1 hs1]
  rfl

theorem pace_eval_3000 : Plots.avg_pace_str 10000 3000 = "5:00 /km" := by
  have hA : Plots.floatDiv 3000 10000 = (5404319552844595 : ℚ) / 2 ^ 54 := by
    rw [Plots.floatDiv]
    refine roundDouble_pos_eval _ (-2) _ 54 (by norm_num) (by norm_num) (by norm_num)
      (by norm_num) ?_ (by norm_num)
    exact rne_of_lt_half _ 5404319552844595 (by norm_num) (by norm_num)
  have hC : Plots.floatMul ((5404319552844595 : ℚ) / 2 ^ 54) ((4691249611844267 : ℚ) / 2 ^ 48) =
      (5629499534213120 : ℚ) / 2 ^ 50 := by
    rw [Plots.floatMul]
    refine roundDouble_pos_eval _ 2 _ 50 (by norm_num) (by norm_num) (by norm_num)
      (by norm_num) ?_ (by norm_num)
    exact rne_of_lt_half _ 5629499534213120 (by norm_num) (by norm_num)
  have hmin : Plots.pyInt ((5629499534213120 : ℚ) / 2 ^ 50) = 5 :=
    pyInt_eq_of _ _ (by norm_num) (by norm_num) (by norm_num)
  have hsub : Plots.floatSub ((5629499534213120 : ℚ) / 2 ^ 50) ((5 : Int) : ℚ) = 0 := by
    rw [Plots.floatSub]
    have harg : (5629499534213120 : ℚ) / 2 ^ 50 - ((5 : Int) : ℚ) = 0 := by norm_num
    rw [harg]
    exact roundDouble_zero
  have hmul60 : Plots.floatMul (0 : ℚ) 60 = 0 := by
    rw [Plots.floatMul, zero_mul]
    exact roundDouble_zero
  have hsec : Plots.pyInt (0 : ℚ) = 0 := by simp [Plots.pyInt]
  have hm1 : Plots.pyInt (Plots.floatMul (Plots.floatDiv 3000 10000)
      (Plots.floatDiv 1000 60)) = 5 := by
    rw [hA, floatDiv_1000_60, hC]
    exact hmin
  have hs1 : Plots.pyInt (Plots.floatMul (Plots.floatSub
      (Plots.floatMul (Plots.floatDiv 3000 10000) (Plots.floatDiv 1000 60))
      ((5 : Int) : ℚ)) 60) = 0 := by
    rw [hA, floatDiv_1000_60, hC, hsub, hmul60]
    exact hsec
  rw [avg_pace_eval 10000 3000 (by norm_num) 5 0 hm1 hs1]
  rfl

/-- C7 (counterexample): in the program's binary64 float arithmetic, 10000 m
in 3030 s yields `"5:02 /km"`, not the `"5:03 /km"` the claim states: the
double nearest 5.05 is 5.04999999999999982…, the seconds product is
2.99999999999998934…, and `int()` truncates it to 2. -/
theorem claim_C7_counterexample :
    Plots.avg_pace_str 10000 3030 = "5:02 /km" ∧
      Plots.avg_pace_str 10000 3030 ≠ "5:03 /km" := by
  constructor
  · exact pace_eval_3030
  · rw [pace_eval_3030]
    decide

/-- C7 (amended): the average-pace string is `"0:00 /km"` at zero total
distance; otherwise the pace decimal is the binary64 evaluation of
`(totalSeconds / totalMeters) * (1000 / 60)`, minutes are its `int()`
truncation, and seconds are the `int()` truncation of the binary64 product
`(decimal - minutes) * 60`, zero-padded; in particular 10000 m in 3000 s
gives `"5:00 /km"` and 10000 m in 3030 s gives `"5:02 /km"` (the rounding of
the doubles lands just below 5.05, so the seconds truncate to 2, not 3). -/
theorem claim_C7_pace_amended (d s : ℚ) (hd : 0 < d) :
    Plots.avg_pace_str 0 s = "0:00 /km" ∧
      Plots.avg_pace_str d s =
        toString (Plots.pyInt (Plots.floatMul (Plots.floatDiv s d) (Plots.floatDiv 1000 60))) ++
          ":" ++
          Plots.pad2 (Plots.pyInt (Plots.floatMul
            (Plots.floatSub (Plots.floatMul (Plots.floatDiv s d) (Plots.floatDiv 1000 60))
              ((Plots.pyInt (Plots.floatMul (Plots.floatDiv s d) (Plots.floatDiv 1000 60)) : ℚ)))
            60)) ++ " /km" ∧
      Plots.avg_pace_str 10000 3000 = "5:00 /km" ∧
      Plots.avg_pace_str 10000 3030 = "5:02 /km" := by
  refine ⟨?_, ?_, pace_eval_3000, pace_eval_3030⟩
  · norm_num [Plots.avg_pace_str]
  · exact avg_pace_eval d s hd _ _ rfl rfl

/-- Witness for C7 (amended) at total distance 10000 m and total time 3000 s. -/
theorem claim_C7_witness :
    Plots.avg_pace_str 0 3000 = "0:00 /km" ∧
      Plots.avg_pace_str 10000 3000 =
        toString (Plots.pyInt (Plots.floatMul (Plots.floatDiv 3000 10000)
            (Plots.floatDiv 1000 60))) ++
          ":" ++
          Plots.pad2 (Plots.pyInt (Plots.floatMul
            (Plots.floatSub (Plots.floatMul (Plots.floatDiv 3000 10000) (Plots.floatDiv 1000 60))
              ((Plots.pyInt (Plots.floatMul (Plots.floatDiv 3000 10000)
                (Plots.floatDiv 1000 60)) : ℚ)))
            60)) ++ " /km" ∧
      Plots.avg_pace_str 10000 3000 = "5:00 /km" ∧
      Plots.avg_pace_str 10000 3030 = "5:02 /km" :=
  claim_C7_pace_amended 10000 3000 (by norm_num)

/-- C8: an empty year selection makes the engine return the empty result, not
raise: the early `return` at line 49 is taken and no payload is built. -/
theorem claim_C8_no_data_for_year (activities : List Plots.Activity) (year : Int)
    (h : Plots.selectYear activities year = []) :
    Plots.mainResult activities year = Except.ok none := by
  simp [Plots.mainResult, h]

/-- Witness for C8 on the empty activity list. -/
theorem claim_C8_witness : Plots.mainResult [] 2025 = Except.ok none :=
  claim_C8_no_data_for_year [] 2025 rfl

/-- C9: every record selected for the year has a `start_date_local` that
parses in the fixed format, so the unguarded second `strptime` at line 78
cannot raise, and the aggregation never reaches the crash outcome. -/
theorem claim_C9_reparse_safe (activities : List Plots.Activity) (year : Int) :
    (∀ a ∈ Plots.selectYear activities year,
        (a.start_date_local.bind Plots.parseTs).isSome = true) ∧
      Plots.mainResult activities year ≠ Except.error () := by
  have hsel : ∀ a ∈ Plots.selectYear activities year,
      (a.start_date_local.bind Plots.parseTs).isSome = true := by
    intro a ha
    have hp : Plots.selectedPred year a = true := (List.mem_filter.mp ha).2
    rw [Plots.selectedPred] at hp
    cases hsd : a.start_date_local with
    | none =>
      rw [hsd] at hp
      simp at hp
    | some s =>
      rw [hsd] at hp
      rw [Bool.and_eq_true] at hp
      have h2 := hp.2
      by_cases hse : s = ""
      · simp [hse] at h2
      · cases hps : Plots.parseTs s with
        | none => simp [hse, hps] at h2
        | some dt => simp [hps]
  refine ⟨hsel, ?_⟩
  by_cases he : (Plots.selectYear activities year).isEmpty
  · simp [Plots.mainResult, he]
  · have hall : (Plots.selectYear activities year).all
        (fun a => (a.start_date_local.bind Plots.parseTs).isSome) = true :=
      List.all_eq_true.mpr (fun a ha => hsel a ha)
    simp [Plots.mainResult, he, hall]

/-- A record with kind `'Run'` and a well-formed local timestamp. -/
def runRec : Plots.Activity :=
  ⟨some "Run", some "2025-01-05T06:20:35Z", none, none, none, none⟩

/-- Witness for C9 on a concrete selected record. -/
theorem claim_C9_witness : (runRec.start_date_local.bind Plots.parseTs).isSome = true :=
  (claim_C9_reparse_safe [runRec] 2025).1 runRec (by decide)

/-- C10: a record whose `start_date_local` is absent or null is excluded from
the year selection silently (no warning), and the parse warning can only come
from a record whose timestamp is present, truthy and fails to parse. -/
theorem claim_C10_warning_discipline (a : Plots.Activity) (year : Int)
    (activities : List Plots.Activity) (w : String) :
    (a.start_date_local = none →
        Plots.selectedPred year a = false ∧ a ∉ Plots.selectYear activities year ∧
          Plots.recordWarning a = none) ∧
      (Plots.recordWarning a = some w →
        ∃ t, a.start_date_local = some t ∧ t ≠ "" ∧ Plots.parseTs t = none) := by
  constructor
  · intro h
    have h1 : Plots.selectedPred year a = false := by
      simp [Plots.selectedPred, h]
    refine ⟨h1, ?_, ?_⟩
    · intro hm
      have := (List.mem_filter.mp hm).2
      rw [h1] at this
      simp at this
    · simp [Plots.recordWarning, h]
  · intro hw
    by_cases ht : (a.type == some "Run") = true
    · simp only [Plots.recordWarning, if_pos ht] at hw
      cases hsd : a.start_date_local with
      | none =>
        rw [hsd] at hw
        simp at hw
      | some s =>
        rw [hsd] at hw
        by_cases hc : s ≠ "" ∧ Plots.parseTs s = none
        · exact ⟨s, rfl, hc.1, hc.2⟩
        · simp only [hc, if_false] at hw
          simp [hc] at hw
    · simp only [Plots.recordWarning, if_neg ht] at hw
      simp at hw

/-- A `'Run'` record with a null `start_date_local`. -/
def nullRec : Plots.Activity := ⟨some "Run", none, none, none, none, none⟩

/-- Witness for C10 on a concrete kind-matching record with no timestamp. -/
theorem claim_C10_witness :
    Plots.selectedPred 2025 nullRec = false ∧ nullRec ∉ Plots.selectYear [nullRec] 2025 ∧
      Plots.recordWarning nullRec = none :=
  (claim_C10_warning_discipline nullRec 2025 [nullRec] "").1 rfl
